import Mathlib

/-!
Verification of `packages/lexical-rich-text/src/index.js` (the rich-text
behavior layer of the lexical editor): a shallow embedding of the command
handler chain registered by `registerRichText`, of the Heading/Quote node
mutations, and of `initializeEditor`, together with theorems settling the
specification claims.

The document model primitives (selection deletion/insertion, `setIndent`,
`append`, `replace`, `insertAfter`, `select`, state installation) live in the
lexical core package, which is not part of the sources under verification;
they are modelled from the specification as atomic effects or as list
operations on a sibling context, each marked `Modelled from the spec:` in its
doc comment.
-/

namespace RichText

/-- The anchor point kind of a Range selection: `anchor.type` is either
`element` or `text` in the source. -/
inductive AnchorType where
  | element
  | text
deriving DecidableEq, Repr

/-- The active selection, as consumed by the handlers.  The source
distinguishes Range selections (`$isRangeSelection`), node selections
(`$isNodeSelection`), grid selections (`$isGridSelection`) and `null`.
A Range selection carries its anchor point data used by the handlers:
the anchor type, the anchor offset, and whether the selection is collapsed
(`selection.isCollapsed()`). -/
inductive Sel where
  | range (anchorType : AnchorType) (anchorOffset : Nat) (collapsed : Bool)
  | nodeSel
  | gridSel
  | noneSel
deriving DecidableEq, Repr

/-- `$isRangeSelection(selection)`. -/
def isRangeSel : Sel → Bool
  | .range _ _ _ => true
  | _ => false

/-- Modelled from the spec: the document model's mutation primitives invoked
by the handlers (`selection.deleteCharacter`, `selection.deleteWord`,
`selection.deleteLine`, `selection.insertText`, `selection.removeText`,
`selection.insertLineBreak`, `selection.insertParagraph`,
`element.setIndent`).  Each is an atomic, total model mutation; the handlers
are verified up to the sequence of primitives they invoke. -/
inductive MEffect where
  | deleteCharacter (backward : Bool)
  | deleteWord (backward : Bool)
  | deleteLine (backward : Bool)
  | insertText (s : String)
  | removeText
  | insertLineBreak (selectStart : Bool)
  | insertParagraph
  | setIndent (n : Nat)
deriving DecidableEq, Repr

/-- The handler-visible state at a dispatch: the active selection, the
anchor's containing block (its indent and its `canInsertTab()` capability),
the anchor node's text content (`anchorNode.getTextContent()`), and the
ordered log of model primitives invoked so far. -/
structure RTState where
  sel : Sel
  blockIndent : Nat
  blockCanInsertTab : Bool
  anchorText : String
  effects : List MEffect
deriving DecidableEq, Repr

/-- Append one model-primitive invocation to the log. -/
def logEff (st : RTState) (e : MEffect) : RTState :=
  { st with effects := st.effects ++ [e] }

/-- `parentBlock.setIndent(n)`: logged and reflected in the block's indent. -/
def setIndentEff (st : RTState) (n : Nat) : RTState :=
  { st with blockIndent := n, effects := st.effects ++ [.setIndent n] }

/-- JavaScript `textContent[offset - 1]`: the character immediately before
the caret, `undefined` (here `none`) when `offset - 1` is out of range
(in particular when `offset = 0`, where the JS index is `-1`). -/
def charBefore (s : String) (offset : Nat) : Option Char :=
  if offset = 0 then none else s.data.get? (offset - 1)

/-- The payload of the `insertText` command: a string or an InputEvent
carrying an optional dataTransfer and optional data string. -/
inductive InsertPayload where
  | str (s : String)
  | event (hasDataTransfer : Bool) (data : Option String)
deriving DecidableEq, Repr

/-- Modelled from the spec: `$insertDataTransferForRichText` merges external
clipboard data into the document at the selection; treated as one atomic
insertion primitive is out of the claims' scope, so it is recorded as an
insertion of the transferred data marker. -/
def insertDataTransferEff (st : RTState) : RTState :=
  logEff st (.insertText "<dataTransfer>")

/-- The `deleteCharacter` handler (source lines 319-331): guard on a Range
selection, then delegate to the model's character-deletion primitive with
the backward flag. -/
def onDeleteCharacter (isBackward : Bool) (st : RTState) : Bool × RTState :=
  if isRangeSel st.sel then (true, logEff st (.deleteCharacter isBackward))
  else (false, st)

/-- The `deleteWord` handler (source lines 332-344). -/
def onDeleteWord (isBackward : Bool) (st : RTState) : Bool × RTState :=
  if isRangeSel st.sel then (true, logEff st (.deleteWord isBackward))
  else (false, st)

/-- The `deleteLine` handler (source lines 345-357). -/
def onDeleteLine (isBackward : Bool) (st : RTState) : Bool × RTState :=
  if isRangeSel st.sel then (true, logEff st (.deleteLine isBackward))
  else (false, st)

/-- The `insertText` handler (source lines 358-383): a string payload goes to
`selection.insertText`; an event payload goes to the dataTransfer path or,
failing that, to `selection.insertText` on non-empty event data. -/
def onInsertText (payload : InsertPayload) (st : RTState) : Bool × RTState :=
  if isRangeSel st.sel then
    match payload with
    | .str s => (true, logEff st (.insertText s))
    | .event hasDataTransfer data =>
      if hasDataTransfer then (true, insertDataTransferEff st)
      else
        match data with
        | some d => if d = "" then (true, st) else (true, logEff st (.insertText d))
        | none => (true, st)
  else (false, st)

/-- The `insertLineBreak` handler (source lines 424-436). -/
def onInsertLineBreak (selectStart : Bool) (st : RTState) : Bool × RTState :=
  if isRangeSel st.sel then (true, logEff st (.insertLineBreak selectStart))
  else (false, st)

/-- The `insertParagraph` handler (source lines 437-448). -/
def onInsertParagraph (st : RTState) : Bool × RTState :=
  if isRangeSel st.sel then (true, logEff st (.insertParagraph))
  else (false, st)

/-- The `indentContent` handler (source lines 449-472): on a Range selection,
if the anchor's containing block `canInsertTab()`, re-dispatch
`insertText '\t'` (the registry has exactly one listener for `insertText`,
at priority 0, so the re-dispatch is that handler); otherwise increment the
block's indent unless it is already 10.  Always reports handled. -/
def onIndentContent (st : RTState) : Bool × RTState :=
  if isRangeSel st.sel then
    if st.blockCanInsertTab then
      (true, (onInsertText (.str "\t") st).2)
    else
      if st.blockIndent ≠ 10 then (true, setIndentEff st (st.blockIndent + 1))
      else (true, st)
  else (false, st)

/-- The `outdentContent` handler (source lines 473-501): on a Range
selection, if the anchor's containing block `canInsertTab()`, look at the
character immediately before the caret in the anchor node's text content and,
when it is a tab, re-dispatch `deleteCharacter true`; otherwise decrement the
block's indent unless it is already 0.  Always reports handled. -/
def onOutdentContent (st : RTState) : Bool × RTState :=
  match st.sel with
  | .range _ anchorOffset _ =>
    if st.blockCanInsertTab then
      if charBefore st.anchorText anchorOffset = some '\t' then
        (true, (onDeleteCharacter true st).2)
      else (true, st)
    else
      if st.blockIndent ≠ 0 then (true, setIndentEff st (st.blockIndent - 1))
      else (true, st)
  | .nodeSel => (false, st)
  | .gridSel => (false, st)
  | .noneSel => (false, st)

/-- A keyboard event, as far as the handlers inspect it. -/
structure KeyEvent where
  shiftKey : Bool
deriving DecidableEq, Repr

/-- The `keyBackspace` handler (source lines 538-560): on a Range selection,
when the selection is collapsed at anchor offset 0 and the anchor's
containing block has indent > 0, re-dispatch `outdentContent`; in every other
Range case re-dispatch `deleteCharacter true`.  (The `event.preventDefault()`
DOM side effect is outside the document model.) -/
def onKeyBackspace (st : RTState) : Bool × RTState :=
  match st.sel with
  | .range _ anchorOffset collapsed =>
    if collapsed ∧ anchorOffset = 0 ∧ st.blockIndent > 0 then
      onOutdentContent st
    else
      onDeleteCharacter true st
  | .nodeSel => (false, st)
  | .gridSel => (false, st)
  | .noneSel => (false, st)

/-- The `keyDelete` handler (source lines 561-573). -/
def onKeyDelete (st : RTState) : Bool × RTState :=
  if isRangeSel st.sel then onDeleteCharacter false st
  else (false, st)

/-- The `keyTab` handler (source lines 590-604): on a Range selection,
re-dispatch `outdentContent` when the event's shift modifier is held, and
`indentContent` otherwise, returning that dispatch's handled flag. -/
def onKeyTab (e : KeyEvent) (st : RTState) : Bool × RTState :=
  if isRangeSel st.sel then
    if e.shiftKey then onOutdentContent st else onIndentContent st
  else (false, st)

/-- The commands whose handlers are embedded here, with their payloads. -/
inductive Command where
  | deleteCharacter (backward : Bool)
  | deleteWord (backward : Bool)
  | deleteLine (backward : Bool)
  | insertText (payload : InsertPayload)
  | insertLineBreak (selectStart : Bool)
  | insertParagraph
  | indentContent
  | outdentContent
  | keyBackspace (e : KeyEvent)
  | keyDelete (e : KeyEvent)
  | keyTab (e : KeyEvent)
deriving DecidableEq, Repr

/-- `editor.execCommand`: the registry dispatches to the handlers for a
command in descending priority order until one reports handled; every
command above has exactly one listener, registered by `registerRichText` at
priority 0, so dispatch is exactly that handler. -/
def execCommand : Command → RTState → Bool × RTState
  | .deleteCharacter b, st => onDeleteCharacter b st
  | .deleteWord b, st => onDeleteWord b st
  | .deleteLine b, st => onDeleteLine b st
  | .insertText p, st => onInsertText p st
  | .insertLineBreak b, st => onInsertLineBreak b st
  | .insertParagraph, st => onInsertParagraph st
  | .indentContent, st => onIndentContent st
  | .outdentContent, st => onOutdentContent st
  | .keyBackspace _, st => onKeyBackspace st
  | .keyDelete _, st => onKeyDelete st
  | .keyTab e, st => onKeyTab e st

/-- Count of character-deletion primitives in an effect log. -/
def countDeleteChar (l : List MEffect) : Nat :=
  l.countP (fun e => match e with | .deleteCharacter _ => true | _ => false)

/-- Count of indent mutations in an effect log. -/
def countSetIndent (l : List MEffect) : Nat :=
  l.countP (fun e => match e with | .setIndent _ => true | _ => false)

/-- Text direction of an element node (`ltr`/`rtl`; `null` is `none`). -/
inductive Direction where
  | ltr
  | rtl
deriving DecidableEq, Repr

/-- The heading tag, `level` ∈ h1..h5, fixed at construction. -/
inductive HeadingTag where
  | h1
  | h2
  | h3
  | h4
  | h5
deriving DecidableEq, Repr

/-- The block node variants involved in the Heading/Quote mutations. -/
inductive ElemKind where
  | paragraph
  | heading (tag : HeadingTag)
  | quote
deriving DecidableEq, Repr

/-- An element node: opaque stable key, variant, text direction, and the
ordered sequence of its child keys (per the data model, child lists hold
unique keys). -/
structure ElementNode where
  key : Nat
  kind : ElemKind
  direction : Option Direction
  children : List Nat
deriving DecidableEq, Repr

/-- Modelled from the spec: `$createParagraphNode()` creates a fresh empty
Paragraph node (no children, null direction) under a fresh key. -/
def createParagraphNode (freshKey : Nat) : ElementNode :=
  { key := freshKey, kind := .paragraph, direction := none, children := [] }

/-- Modelled from the spec: `element.append(child)` reparents the child to
the end of the element's child list. -/
def appendChild (el : ElementNode) (childKey : Nat) : ElementNode :=
  { el with children := el.children ++ [childKey] }

/-- Modelled from the spec: `node.replace(replacement)` substitutes the
replacement for the node at the node's position in its parent's child
context; the original node leaves the tree. -/
def replaceNode (siblings : List ElementNode) (oldKey : Nat)
    (newNode : ElementNode) : List ElementNode :=
  siblings.map (fun n => if n.key = oldKey then newNode else n)

/-- Modelled from the spec: `node.insertAfter(newNode)` inserts the new node
immediately after the node in its parent's child context. -/
def insertAfterNode : List ElementNode → Nat → ElementNode → List ElementNode
  | [], _, _ => []
  | n :: rest, k, newNode =>
    if n.key = k then n :: newNode :: rest
    else n :: insertAfterNode rest k newNode

/-- `collapseAtStart` of `QuoteNode` (source lines 91-97) and `HeadingNode`
(source lines 184-190), whose bodies are identical: create a fresh Paragraph,
append every child of this node to it in order, replace this node with the
paragraph, and return `true`.  `siblings` is the node's parent child context;
`freshKey` is the key of the created paragraph. -/
def collapseAtStart (self : ElementNode) (freshKey : Nat)
    (siblings : List ElementNode) : List ElementNode × Bool :=
  let paragraph := self.children.foldl appendChild (createParagraphNode freshKey)
  (replaceNode siblings self.key paragraph, true)

/-- `insertNewAfter` of `QuoteNode` (source lines 83-89) and `HeadingNode`
(source lines 176-182), whose bodies are identical: create a fresh Paragraph,
set its direction to this node's current direction, insert it immediately
after this node, and return it. -/
def insertNewAfter (self : ElementNode) (freshKey : Nat)
    (siblings : List ElementNode) : List ElementNode × ElementNode :=
  let newElement := { createParagraphNode freshKey with direction := self.direction }
  (insertAfterNode siblings self.key newElement, newElement)

/-- A collapsed caret: the node it sits in and the character offset. -/
structure Caret where
  nodeKey : Nat
  offset : Nat
deriving DecidableEq, Repr

/-- The editor-level state seen by `initializeEditor`: the root's child list,
the active selection (a collapsed caret or `null`), whether the DOM active
element is the editor's root element, and a count of `editor.update`
transactions run (to observe that the `null` path runs none). -/
structure EditorState where
  rootChildren : List ElementNode
  selection : Option Caret
  hasFocus : Bool
  updatesRun : Nat
deriving DecidableEq, Repr

/-- The `initialEditorState` argument: JavaScript `undefined` (parameter
omitted), `null`, a serialized string, a pre-built editor state object, or a
callback run inside an update transaction. -/
inductive InitArg where
  | undef
  | nullArg
  | str (s : String)
  | stateObj (rootChildren : List ElementNode) (selection : Option Caret)
  | func (f : List ElementNode → Option Caret → List ElementNode × Option Caret)

/-- Modelled from the spec: `paragraph.select()` on the freshly created empty
paragraph places the selection as a collapsed caret inside it at offset 0. -/
def selectNodeStart (ed : EditorState) (k : Nat) : EditorState :=
  { ed with selection := some { nodeKey := k, offset := 0 } }

/-- Modelled from the spec: `editor.setEditorState` installs a document
state, replacing the root's children and the selection. -/
def setEditorState (ed : EditorState) (rootChildren : List ElementNode)
    (selection : Option Caret) : EditorState :=
  { ed with rootChildren := rootChildren, selection := selection }

/-- `initializeEditor` (source lines 216-255).  `null`: return immediately
(no update, no mutation).  `undefined`: run one update that, when the root
has no first child, appends one fresh paragraph and, when a selection exists
or the editor's root element has focus, selects inside that paragraph.
A string is parsed and installed (`parse` models the external
`editor.parseEditorState`); a state object is installed directly; a callback
runs inside one update transaction. -/
def initializeEditor (parse : String → List ElementNode × Option Caret)
    (ed : EditorState) (freshKey : Nat) (init : InitArg) : EditorState :=
  match init with
  | .nullArg => ed
  | .undef =>
    let ed := { ed with updatesRun := ed.updatesRun + 1 }
    match ed.rootChildren with
    | [] =>
      let paragraph := createParagraphNode freshKey
      let ed := { ed with rootChildren := [paragraph] }
      if ed.selection ≠ none ∨ ed.hasFocus then selectNodeStart ed freshKey
      else ed
    | _ => ed
  | .str s =>
    let parsed := parse s
    setEditorState ed parsed.1 parsed.2
  | .stateObj rootChildren selection => setEditorState ed rootChildren selection
  | .func f =>
    let ed := { ed with updatesRun := ed.updatesRun + 1 }
    let r := f ed.rootChildren ed.selection
    { ed with rootChildren := r.1, selection := r.2 }

/-- The command names registered by `registerRichText` (source lines
302-687), in registration order, all at priority 0. -/
def richTextCommands : List String :=
  ["click", "deleteCharacter", "deleteWord", "deleteLine", "insertText",
   "removeText", "formatText", "formatElement", "insertLineBreak",
   "insertParagraph", "indentContent", "outdentContent", "keyArrowLeft",
   "keyArrowRight", "keyBackspace", "keyDelete", "keyEnter", "keyTab",
   "keyEscape", "drop", "dragstart", "copy", "cut", "paste"]

/-- `registerRichText` (source lines 302-687): registers one listener per
command name unconditionally, then calls `initializeEditor` with the given
`initialEditorState`; returns the set of registered commands together with
the resulting editor state. -/
def registerRichText (parse : String → List ElementNode × Option Caret)
    (ed : EditorState) (freshKey : Nat) (init : InitArg) :
    List String × EditorState :=
  (richTextCommands, initializeEditor parse ed freshKey init)

/-- A collapsed Range selection at anchor offset 0 inside a block with
indent 5 that does not accept literal tabs: input for the `deleteCharacter`
claim. -/
def stDel : RTState :=
  { sel := .range .text 0 true, blockIndent := 5, blockCanInsertTab := false,
    anchorText := "abc", effects := [] }

end RichText

namespace RichText

/-- Claim C2, counterexample: dispatching `deleteCharacter` with
`backward = true` on a selection collapsed at offset 0 of a block with
indent 5 > 0 performs the backward character deletion and leaves the indent
untouched — the handler does not re-dispatch `outdentContent` as the claim
states (that check lives in the `keyBackspace` handler instead). -/
theorem deleteCharacter_outdent_counterexample :
    (execCommand (.deleteCharacter true) stDel).2.effects = [.deleteCharacter true] ∧
    (execCommand (.deleteCharacter true) stDel).2.blockIndent = 5 ∧
    countSetIndent (execCommand (.deleteCharacter true) stDel).2.effects = 0 ∧
    countDeleteChar (execCommand (.deleteCharacter true) stDel).2.effects = 1 := by
  decide

/-- Claim C2, amended: for every dispatch of `deleteCharacter` with an active
Range selection, the handler delegates unconditionally to the model's
character-deletion primitive with the given backward flag (no outdent
re-dispatch, no indent change) and reports handled; the collapsed-at-offset-0
indent consumption is performed by the `keyBackspace` handler before
`deleteCharacter` is ever dispatched. -/
theorem deleteCharacter_delegates (st : RTState) (b : Bool)
    (aT : AnchorType) (aOff : Nat) (c : Bool)
    (hsel : st.sel = .range aT aOff c) :
    execCommand (.deleteCharacter b) st =
      (true, { st with effects := st.effects ++ [.deleteCharacter b] }) := by
  simp [execCommand, onDeleteCharacter, isRangeSel, hsel, logEff]

/-- Witness for `deleteCharacter_delegates` at a concrete input. -/
theorem deleteCharacter_delegates_witness :
    execCommand (.deleteCharacter true) stDel =
      (true, { stDel with effects := stDel.effects ++ [.deleteCharacter true] }) :=
  deleteCharacter_delegates stDel true .text 0 true rfl

/-- Claim C3: for every dispatch of `indentContent` with an active Range
selection the handler reports handled, and: if the anchor's containing block
reports `canInsertTab`, a literal tab is inserted via the `insertText`
re-dispatch and the indent is unchanged; otherwise the indent is incremented
by 1, except that a block already at indent 10 is left untouched (repeated
dispatch at the bound is a no-op). -/
theorem indentContent_increments (st : RTState)
    (aT : AnchorType) (aOff : Nat) (c : Bool)
    (hsel : st.sel = .range aT aOff c) (heff : st.effects = []) :
    (execCommand .indentContent st).1 = true ∧
    (st.blockCanInsertTab = true →
      (execCommand .indentContent st).2 =
        { st with effects := [.insertText "\t"] }) ∧
    (st.blockCanInsertTab = false →
      (st.blockIndent ≠ 10 →
        (execCommand .indentContent st).2 =
          { st with blockIndent := st.blockIndent + 1,
                    effects := [.setIndent (st.blockIndent + 1)] }) ∧
      (st.blockIndent = 10 → (execCommand .indentContent st).2 = st)) := by
  cases hct : st.blockCanInsertTab <;>
    by_cases hi : st.blockIndent = 10 <;>
      simp [execCommand, onIndentContent, onInsertText, isRangeSel, hsel, hct,
        heff, logEff, setIndentEff, hi]

/-- Witness for `indentContent_increments` at a concrete input. -/
theorem indentContent_increments_witness :
    (execCommand .indentContent stDel).1 = true ∧
    (stDel.blockCanInsertTab = true →
      (execCommand .indentContent stDel).2 =
        { stDel with effects := [.insertText "\t"] }) ∧
    (stDel.blockCanInsertTab = false →
      (stDel.blockIndent ≠ 10 →
        (execCommand .indentContent stDel).2 =
          { stDel with blockIndent := stDel.blockIndent + 1,
                       effects := [.setIndent (stDel.blockIndent + 1)] }) ∧
      (stDel.blockIndent = 10 → (execCommand .indentContent stDel).2 = stDel)) :=
  indentContent_increments stDel .text 0 true rfl rfl

/-- A Range selection at anchor offset 1 whose preceding character is not a
tab, inside a tab-accepting block with indent 5: input for the
`outdentContent` claim. -/
def stOutTab : RTState :=
  { sel := .range .text 1 true, blockIndent := 5, blockCanInsertTab := true,
    anchorText := "ab", effects := [] }

/-- Claim C4, counterexample: dispatching `outdentContent` on a tab-accepting
block (`canInsertTab`) whose caret is not preceded by a tab character leaves
the state completely unchanged — in particular the indent stays 5 instead of
being decremented to 4 as the claim's otherwise-branch states, and nothing is
deleted. -/
theorem outdentContent_counterexample :
    (execCommand .outdentContent stOutTab).2 = stOutTab ∧
    (execCommand .outdentContent stOutTab).2.blockIndent ≠ stOutTab.blockIndent - 1 ∧
    (execCommand .outdentContent stOutTab).1 = true := by
  decide

/-- Claim C4, amended: for every dispatch of `outdentContent` with an active
Range selection the handler reports handled, and: if the block reports
`canInsertTab`, then when the character immediately before the caret is a tab
exactly that one character is deleted via the `deleteCharacter` backward
re-dispatch (indent unchanged), and when it is not a tab nothing happens at
all; if the block does not report `canInsertTab`, the indent is decremented
by 1, except that a block already at indent 0 is left untouched (repeated
dispatch at the bound is a no-op). -/
theorem outdentContent_decrements (st : RTState)
    (aT : AnchorType) (aOff : Nat) (c : Bool)
    (hsel : st.sel = .range aT aOff c) (heff : st.effects = []) :
    (execCommand .outdentContent st).1 = true ∧
    (st.blockCanInsertTab = true →
      (charBefore st.anchorText aOff = some '\t' →
        (execCommand .outdentContent st).2 =
          { st with effects := [.deleteCharacter true] }) ∧
      (charBefore st.anchorText aOff ≠ some '\t' →
        (execCommand .outdentContent st).2 = st)) ∧
    (st.blockCanInsertTab = false →
      (st.blockIndent ≠ 0 →
        (execCommand .outdentContent st).2 =
          { st with blockIndent := st.blockIndent - 1,
                    effects := [.setIndent (st.blockIndent - 1)] }) ∧
      (st.blockIndent = 0 → (execCommand .outdentContent st).2 = st)) := by
  cases hct : st.blockCanInsertTab <;>
    by_cases hi : st.blockIndent = 0 <;>
      by_cases htab : charBefore st.anchorText aOff = some '\t' <;>
        simp [execCommand, onOutdentContent, onDeleteCharacter, isRangeSel,
          hsel, hct, heff, logEff, setIndentEff, hi, htab]

/-- Witness for `outdentContent_decrements` at a concrete input. -/
theorem outdentContent_decrements_witness :
    (execCommand .outdentContent stOutTab).1 = true ∧
    (stOutTab.blockCanInsertTab = true →
      (charBefore stOutTab.anchorText 1 = some '\t' →
        (execCommand .outdentContent stOutTab).2 =
          { stOutTab with effects := [.deleteCharacter true] }) ∧
      (charBefore stOutTab.anchorText 1 ≠ some '\t' →
        (execCommand .outdentContent stOutTab).2 = stOutTab)) ∧
    (stOutTab.blockCanInsertTab = false →
      (stOutTab.blockIndent ≠ 0 →
        (execCommand .outdentContent stOutTab).2 =
          { stOutTab with blockIndent := stOutTab.blockIndent - 1,
                          effects := [.setIndent (stOutTab.blockIndent - 1)] }) ∧
      (stOutTab.blockIndent = 0 → (execCommand .outdentContent stOutTab).2 = stOutTab)) :=
  outdentContent_decrements stOutTab .text 1 true rfl rfl

/-- Claim C5: for every dispatch of `keyTab` with an active Range selection,
the resulting state (hence the document mutation) and the returned handled
flag are exactly those of a direct dispatch of `outdentContent` when the
event's shift modifier is held, and of `indentContent` when it is not. -/
theorem keyTab_equiv (st : RTState) (e : KeyEvent)
    (aT : AnchorType) (aOff : Nat) (c : Bool)
    (hsel : st.sel = .range aT aOff c) :
    execCommand (.keyTab e) st =
      execCommand (if e.shiftKey then .outdentContent else .indentContent) st := by
  cases hs : e.shiftKey <;> simp [execCommand, onKeyTab, isRangeSel, hsel, hs]

/-- Witness for `keyTab_equiv` at a concrete input. -/
theorem keyTab_equiv_witness :
    execCommand (.keyTab ⟨true⟩) stOutTab =
      execCommand (if (true : Bool) then .outdentContent else .indentContent) stOutTab :=
  keyTab_equiv stOutTab ⟨true⟩ .text 1 true rfl

/-- Claim C6: for every command with a boolean payload (`deleteCharacter`,
`deleteWord`, `deleteLine`, `insertLineBreak`) and every active selection
that is not a Range selection (a node selection or no selection), dispatching
the command returns `false` and leaves the state completely unchanged. -/
theorem nonRange_bool_commands_noop (st : RTState) (b : Bool)
    (hsel : st.sel = .nodeSel ∨ st.sel = .noneSel) :
    execCommand (.deleteCharacter b) st = (false, st) ∧
    execCommand (.deleteWord b) st = (false, st) ∧
    execCommand (.deleteLine b) st = (false, st) ∧
    execCommand (.insertLineBreak b) st = (false, st) := by
  rcases hsel with h | h <;>
    simp [execCommand, onDeleteCharacter, onDeleteWord, onDeleteLine,
      onInsertLineBreak, isRangeSel, h]

/-- A node selection over a block with indent 5: input for the non-Range
guard claim. -/
def stNode : RTState :=
  { sel := .nodeSel, blockIndent := 5, blockCanInsertTab := false,
    anchorText := "abc", effects := [] }

/-- Witness for `nonRange_bool_commands_noop` at a concrete input. -/
theorem nonRange_bool_commands_noop_witness :
    execCommand (.deleteCharacter true) stNode = (false, stNode) ∧
    execCommand (.deleteWord true) stNode = (false, stNode) ∧
    execCommand (.deleteLine true) stNode = (false, stNode) ∧
    execCommand (.insertLineBreak true) stNode = (false, stNode) :=
  nonRange_bool_commands_noop stNode true (Or.inl rfl)

/-- A collapsed Range selection at anchor offset 0 inside a tab-accepting
block with indent 1: input for the `keyBackspace` claim. -/
def stBackTab : RTState :=
  { sel := .range .text 0 true, blockIndent := 1, blockCanInsertTab := true,
    anchorText := "", effects := [] }

/-- Claim C1, counterexample: dispatching `keyBackspace` with a collapsed
Range selection at offset 0 of a block with indent 1 > 0 that reports
`canInsertTab` performs neither an outdent nor a character deletion: the
re-dispatched `outdentContent` takes the tab branch (no character precedes
offset 0) and leaves the indent at 1 instead of decrementing it to 0 as the
claim states. -/
theorem keyBackspace_counterexample :
    (execCommand (.keyBackspace ⟨false⟩) stBackTab).2.blockIndent = 1 ∧
    (execCommand (.keyBackspace ⟨false⟩) stBackTab).2.blockIndent ≠
      stBackTab.blockIndent - 1 ∧
    countSetIndent (execCommand (.keyBackspace ⟨false⟩) stBackTab).2.effects = 0 ∧
    countDeleteChar (execCommand (.keyBackspace ⟨false⟩) stBackTab).2.effects = 0 := by
  decide

/-- Claim C1, amended: for every dispatch of `keyBackspace` with an active
Range selection: if the selection is collapsed at anchor offset 0, the
containing block has indent > 0 and the block does not report
`canInsertTab`, the handler performs exactly one outdent (one `setIndent`
decrementing the indent by 1) and no character deletion; if the indent is 0
or the selection is not collapsed at offset 0, it performs exactly one
backward character deletion and no indent change. -/
theorem keyBackspace_outdents (st : RTState) (e : KeyEvent)
    (aT : AnchorType) (aOff : Nat) (c : Bool)
    (hsel : st.sel = .range aT aOff c) (heff : st.effects = []) :
    ((c = true ∧ aOff = 0 ∧ 0 < st.blockIndent ∧ st.blockCanInsertTab = false) →
      (execCommand (.keyBackspace e) st).2 =
        { st with blockIndent := st.blockIndent - 1,
                  effects := [.setIndent (st.blockIndent - 1)] }) ∧
    ((¬(c = true ∧ aOff = 0) ∨ st.blockIndent = 0) →
      (execCommand (.keyBackspace e) st).2 =
        { st with effects := [.deleteCharacter true] }) := by
  constructor
  · rintro ⟨hc, hoff, hpos, hct⟩
    have hne : st.blockIndent ≠ 0 := Nat.pos_iff_ne_zero.mp hpos
    simp [execCommand, onKeyBackspace, onOutdentContent, isRangeSel, hsel, hc,
      hoff, hpos, hct, hne, heff, setIndentEff]
  · intro hcase
    have hgoal :
        ¬(c = true ∧ aOff = 0 ∧ st.blockIndent > 0) := by
      rcases hcase with h | h
      · exact fun hx => h ⟨hx.1, hx.2.1⟩
      · exact fun hx => Nat.lt_irrefl 0 (h ▸ hx.2.2)
    simp [execCommand, onKeyBackspace, onDeleteCharacter, isRangeSel, hsel,
      hgoal, heff, logEff]

/-- Witness for `keyBackspace_outdents` at a concrete input (collapsed at
offset 0, indent 5, block not tab-accepting: the outdent branch fires). -/
theorem keyBackspace_outdents_witness :
    ((true = true ∧ 0 = 0 ∧ 0 < stDel.blockIndent ∧ stDel.blockCanInsertTab = false) →
      (execCommand (.keyBackspace ⟨false⟩) stDel).2 =
        { stDel with blockIndent := stDel.blockIndent - 1,
                     effects := [.setIndent (stDel.blockIndent - 1)] }) ∧
    ((¬(true = true ∧ 0 = 0) ∨ stDel.blockIndent = 0) →
      (execCommand (.keyBackspace ⟨false⟩) stDel).2 =
        { stDel with effects := [.deleteCharacter true] }) :=
  keyBackspace_outdents stDel ⟨false⟩ .text 0 true rfl rfl

/-- Folding `append` over a child list extends the element's children in
order, leaving key, kind and direction untouched. -/
theorem foldl_appendChild (el : ElementNode) (l : List Nat) :
    l.foldl appendChild el = { el with children := el.children ++ l } := by
  induction l generalizing el with
  | nil => simp
  | cons x xs ih => simp [appendChild, ih, List.append_assoc]

/-- Replacement by key leaves a list untouched when no member carries the
key. -/
theorem map_replace_of_notin (l : List ElementNode) (k : Nat) (p : ElementNode)
    (h : ∀ n ∈ l, n.key ≠ k) :
    l.map (fun n => if n.key = k then p else n) = l := by
  induction l with
  | nil => rfl
  | cons a xs ih =>
    simp only [List.map_cons]
    rw [if_neg (h a (List.mem_cons_self a xs)),
      ih (fun n hn => h n (List.mem_cons_of_mem a hn))]

/-- `insertAfter` places the new node immediately after the first occurrence
of the key; when the earlier siblings do not carry the key, this is right
after `self`. -/
theorem insertAfterNode_append (pre post : List ElementNode)
    (self newNode : ElementNode)
    (hpre : ∀ n ∈ pre, n.key ≠ self.key) :
    insertAfterNode (pre ++ self :: post) self.key newNode =
      pre ++ self :: newNode :: post := by
  induction pre with
  | nil => simp [insertAfterNode]
  | cons a xs ih =>
    simp only [List.cons_append, insertAfterNode, List.append_eq]
    rw [if_neg (hpre a (List.mem_cons_self a xs)),
      ih (fun n hn => hpre n (List.mem_cons_of_mem a hn))]

/-- Claim C7: for every Heading or Quote node with children, `collapseAtStart`
creates a fresh Paragraph carrying the same children in the same order,
replaces the original node with that Paragraph at its position in the parent
context (the original node is gone from the result), and returns `true`.
`hfresh` and `huniq` are the model invariants: the created paragraph's key is
fresh and child lists hold unique keys. -/
theorem collapseAtStart_reparents (self : ElementNode) (freshKey : Nat)
    (pre post : List ElementNode)
    (_hkind : (∃ t, self.kind = .heading t) ∨ self.kind = .quote)
    (hfresh : freshKey ≠ self.key)
    (huniq : ∀ n ∈ pre ++ post, n.key ≠ self.key) :
    (collapseAtStart self freshKey (pre ++ self :: post)).2 = true ∧
    ∃ p : ElementNode,
      (collapseAtStart self freshKey (pre ++ self :: post)).1 = pre ++ p :: post ∧
      p.kind = .paragraph ∧
      p.children = self.children ∧
      p.key = freshKey ∧
      ∀ n ∈ (collapseAtStart self freshKey (pre ++ self :: post)).1,
        n.key ≠ self.key := by
  have hpre : ∀ n ∈ pre, n.key ≠ self.key :=
    fun n hn => huniq n (List.mem_append_left _ hn)
  have hpost : ∀ n ∈ post, n.key ≠ self.key :=
    fun n hn => huniq n (List.mem_append_right _ hn)
  have hpar : self.children.foldl appendChild (createParagraphNode freshKey) =
      { key := freshKey, kind := .paragraph, direction := none,
        children := self.children } := by
    rw [foldl_appendChild]; rfl
  have hres : (collapseAtStart self freshKey (pre ++ self :: post)).1 =
      pre ++ { key := freshKey, kind := .paragraph, direction := none,
               children := self.children } :: post := by
    simp only [collapseAtStart, hpar, replaceNode, List.map_append,
      List.map_cons, if_pos]
    rw [map_replace_of_notin pre _ _ hpre, map_replace_of_notin post _ _ hpost]
  refine ⟨rfl, ⟨_, hres, rfl, rfl, rfl, ?_⟩⟩
  rw [hres]
  intro n hn
  rcases List.mem_append.mp hn with h | h
  · exact hpre n h
  · rcases List.mem_cons.mp h with h | h
    · rw [h]; exact hfresh
    · exact hpost n h

/-- A Quote node with two children under key 1: input for the
`collapseAtStart` claim. -/
def quoteW : ElementNode :=
  { key := 1, kind := .quote, direction := none, children := [10, 11] }

/-- Witness for `collapseAtStart_reparents` at a concrete input. -/
theorem collapseAtStart_reparents_witness :
    (collapseAtStart quoteW 2 ([] ++ quoteW :: [])).2 = true ∧
    ∃ p : ElementNode,
      (collapseAtStart quoteW 2 ([] ++ quoteW :: [])).1 = [] ++ p :: [] ∧
      p.kind = .paragraph ∧
      p.children = quoteW.children ∧
      p.key = 2 ∧
      ∀ n ∈ (collapseAtStart quoteW 2 ([] ++ quoteW :: [])).1,
        n.key ≠ quoteW.key :=
  collapseAtStart_reparents quoteW 2 [] [] (Or.inr rfl) (by decide) (by simp)

/-- Claim C8: for every Heading or Quote node, `insertNewAfter` inserts
exactly one new node immediately after the source node in the parent context,
that node is a Paragraph (never another Heading or Quote, and empty), its
text direction is the source node's current direction, and it is the returned
node.  `hpre` is the model invariant that sibling keys are unique. -/
theorem insertNewAfter_paragraph (self : ElementNode) (freshKey : Nat)
    (pre post : List ElementNode)
    (_hkind : (∃ t, self.kind = .heading t) ∨ self.kind = .quote)
    (hpre : ∀ n ∈ pre, n.key ≠ self.key) :
    (insertNewAfter self freshKey (pre ++ self :: post)).1 =
      pre ++ self :: (insertNewAfter self freshKey (pre ++ self :: post)).2 :: post ∧
    (insertNewAfter self freshKey (pre ++ self :: post)).2.kind = .paragraph ∧
    (insertNewAfter self freshKey (pre ++ self :: post)).2.direction =
      self.direction ∧
    (insertNewAfter self freshKey (pre ++ self :: post)).2.children = [] := by
  refine ⟨?_, rfl, rfl, rfl⟩
  simp only [insertNewAfter]
  exact insertAfterNode_append pre post self _ hpre

/-- A level-2 Heading node with one child and rtl direction under key 3:
input for the `insertNewAfter` claim. -/
def headingW : ElementNode :=
  { key := 3, kind := .heading .h2, direction := some .rtl, children := [7] }

/-- Witness for `insertNewAfter_paragraph` at a concrete input. -/
theorem insertNewAfter_paragraph_witness :
    (insertNewAfter headingW 4 ([] ++ headingW :: [])).1 =
      [] ++ headingW :: (insertNewAfter headingW 4 ([] ++ headingW :: [])).2 :: [] ∧
    (insertNewAfter headingW 4 ([] ++ headingW :: [])).2.kind = .paragraph ∧
    (insertNewAfter headingW 4 ([] ++ headingW :: [])).2.direction =
      headingW.direction ∧
    (insertNewAfter headingW 4 ([] ++ headingW :: [])).2.children = [] :=
  insertNewAfter_paragraph headingW 4 [] [] (Or.inl ⟨.h2, rfl⟩) (by simp)

/-- Claim C9: initialization with no initial state (JavaScript `undefined`)
on a document whose root has no children leaves the root with exactly one
fresh Paragraph child, and the caret is placed collapsed inside that
paragraph at offset 0 exactly when a selection already existed or the editor
root element had focus (otherwise the selection stays as it was, i.e. absent);
when the root already has a child, the document and selection are left
unchanged. -/
theorem initializeEditor_default (parse : String → List ElementNode × Option Caret)
    (ed : EditorState) (freshKey : Nat) :
    (ed.rootChildren = [] →
      (initializeEditor parse ed freshKey .undef).rootChildren =
        [createParagraphNode freshKey] ∧
      ((ed.selection ≠ none ∨ ed.hasFocus = true) →
        (initializeEditor parse ed freshKey .undef).selection =
          some { nodeKey := freshKey, offset := 0 }) ∧
      (ed.selection = none ∧ ed.hasFocus = false →
        (initializeEditor parse ed freshKey .undef).selection = none)) ∧
    (ed.rootChildren ≠ [] →
      (initializeEditor parse ed freshKey .undef).rootChildren =
        ed.rootChildren ∧
      (initializeEditor parse ed freshKey .undef).selection = ed.selection) := by
  constructor
  · intro hroot
    by_cases hc : ed.selection = none ∧ ed.hasFocus = false
    · have hsel : ed.selection = none := hc.1
      have hfoc : ed.hasFocus = false := hc.2
      simp [initializeEditor, hroot, hsel, hfoc, selectNodeStart]
    · have hor : ed.selection ≠ none ∨ ed.hasFocus = true := by
        by_cases hs : ed.selection = none
        · right
          cases hfo : ed.hasFocus with
          | true => rfl
          | false => exact absurd ⟨hs, hfo⟩ hc
        · exact Or.inl hs
      rcases hor with h | h
      · simp [initializeEditor, hroot, h, selectNodeStart]
      · simp [initializeEditor, hroot, h, selectNodeStart]
  · intro hroot
    cases hr : ed.rootChildren with
    | nil => exact absurd hr hroot
    | cons a rest => simp [initializeEditor, hr]

/-- The empty focused editor: root with no children, no selection, focus on
the editor root element. -/
def edEmpty : EditorState :=
  { rootChildren := [], selection := none, hasFocus := true, updatesRun := 0 }

/-- A trivial stand-in for the external `editor.parseEditorState`. -/
def parseNone (_s : String) : List ElementNode × Option Caret :=
  ([], none)

/-- Witness for `initializeEditor_default` at a concrete input. -/
theorem initializeEditor_default_witness :
    (edEmpty.rootChildren = [] →
      (initializeEditor parseNone edEmpty 5 .undef).rootChildren =
        [createParagraphNode 5] ∧
      ((edEmpty.selection ≠ none ∨ edEmpty.hasFocus = true) →
        (initializeEditor parseNone edEmpty 5 .undef).selection =
          some { nodeKey := 5, offset := 0 }) ∧
      (edEmpty.selection = none ∧ edEmpty.hasFocus = false →
        (initializeEditor parseNone edEmpty 5 .undef).selection = none)) ∧
    (edEmpty.rootChildren ≠ [] →
      (initializeEditor parseNone edEmpty 5 .undef).rootChildren =
        edEmpty.rootChildren ∧
      (initializeEditor parseNone edEmpty 5 .undef).selection =
        edEmpty.selection) :=
  initializeEditor_default parseNone edEmpty 5

/-- Claim C10: calling `registerRichText` with `initialEditorState` equal to
`null` performs no initialization at all — no update transaction runs and the
editor state is returned exactly as it was — whereas the same registered
command set is produced as with `undefined`, which on an empty root builds
the default one-paragraph document. -/
theorem registerRichText_null_noop
    (parse : String → List ElementNode × Option Caret)
    (ed : EditorState) (freshKey : Nat) :
    (registerRichText parse ed freshKey .nullArg).2 = ed ∧
    (registerRichText parse ed freshKey .nullArg).2.updatesRun = ed.updatesRun ∧
    (registerRichText parse ed freshKey .nullArg).1 =
      (registerRichText parse ed freshKey .undef).1 ∧
    (ed.rootChildren = [] →
      (registerRichText parse ed freshKey .undef).2.rootChildren =
        [createParagraphNode freshKey]) := by
  refine ⟨rfl, rfl, rfl, ?_⟩
  intro hroot
  by_cases hc : ed.selection ≠ none ∨ ed.hasFocus = true
  · rcases hc with h | h <;>
      simp [registerRichText, initializeEditor, hroot, h, selectNodeStart]
  · push_neg at hc
    simp [registerRichText, initializeEditor, hroot, hc.1, hc.2, selectNodeStart]

/-- An editor state whose root already has a paragraph child: input for the
`null` initialization claim. -/
def edNonEmpty : EditorState :=
  { rootChildren := [createParagraphNode 9], selection := some { nodeKey := 9, offset := 0 },
    hasFocus := false, updatesRun := 3 }

/-- Witness for `registerRichText_null_noop` at a concrete input. -/
theorem registerRichText_null_noop_witness :
    (registerRichText parseNone edNonEmpty 5 .nullArg).2 = edNonEmpty ∧
    (registerRichText parseNone edNonEmpty 5 .nullArg).2.updatesRun =
      edNonEmpty.updatesRun ∧
    (registerRichText parseNone edNonEmpty 5 .nullArg).1 =
      (registerRichText parseNone edNonEmpty 5 .undef).1 ∧
    (edNonEmpty.rootChildren = [] →
      (registerRichText parseNone edNonEmpty 5 .undef).2.rootChildren =
        [createParagraphNode 5]) :=
  registerRichText_null_noop parseNone edNonEmpty 5

end RichText
